import Mathlib

set_option autoImplicit false

/-!
Verification of the remex distributed execution engine (github.com/leijux/remex).

The Go sources are shallowly embedded: pure control flow becomes Lean functions,
the external SSH / SFTP collaborators become explicit environment parameters
(dial outcomes, remote command outcomes), goroutine scheduling choices become
explicit parameters (for example which branch of a select fires), and Go runtime
faults (nil-map writes, method calls on nil interfaces) are modelled by an
explicit Panic outcome, since a Go program that hits one of them aborts instead
of returning.

The repository holds several revisions of the engine side by side.  The
Stage-based engine (file src/unnamed/part_001, first document: Connected /
Start / Finish stages, RemoteClient interface, configs map) is embedded under
names ending in P1; the Index-based engine (file src/remex.go: ExecResult with
an integer index, NewWithConfig, clients map of *SSHClient) is embedded under
names ending in Go.  Each definition follows the cited source lines.
-/

namespace Remex

/-- Error values produced by the package.  Each constructor mirrors one
error-construction site in the Go sources (errors.New / fmt.Errorf); `%w`
wrapping is modelled by carrying the wrapped error as an argument. -/
inductive Err where
  /-- ctx.Err() after cancellation of the engine context. -/
  | ctxCanceled
  /-- An error produced by the external dial / authentication collaborator. -/
  | dialFailed (msg : String)
  /-- part_001 Connect: fmt.Errorf("host %s (%s): %w", id, config.Addr, err). -/
  | hostWrapped (id : String) (addr : String) (e : Err)
  /-- Connect: fmt.Errorf("no successful connections: %w", errors.Join(connectionErrors...)). -/
  | noConnections (joined : List Err)
  /-- part_001 execCommands: fmt.Errorf("failed to execute command %q: %w", command, err). -/
  | cmdFailed (command : String) (e : Err)
  /-- ssh.go ExecRemoteCommand: fmt.Errorf("command execution failed: %w", err). -/
  | execFailed (e : Err)
  /-- ssh.go ExecRemoteCommand: fmt.Errorf("failed to create session: %w", err). -/
  | sessionFailed (e : Err)
  /-- ssh.go ExecRemexCommand: fmt.Errorf("unknown remex command: %s", name). -/
  | unknownRemexCommand (name : String)
  /-- ssh.go ExecRemexCommand: fmt.Errorf("remex command '%s' failed: %w", name, err). -/
  | remexCmdFailed (name : String) (e : Err)
  /-- Close: fmt.Errorf("errors closing clients: ...", closeErrors). -/
  | closeErrors (errs : List Err)
  /-- ssh.go: errors.New("SSH client is nil") / "SSH client is not connected". -/
  | nilClient
  /-- ssh.go ExecRemexCommand: errors.New("invalid command") (dead branch). -/
  | invalidCommand
  /-- cmd.go RegisterCommand: errors.New("command name cannot be empty"). -/
  | emptyName
  /-- cmd.go RegisterCommand: errors.New("command function cannot be nil"). -/
  | nilHandler
  /-- Any other collaborator-produced error, identified by its message. -/
  | other (msg : String)
  deriving Repr

/-- SSHConfig from src/ssh.go.  netip.Addr is kept abstract as its rendered
string; the timeout and host-key callback never influence the embedded logic. -/
structure SSHConfig where
  username : String := ""
  password : String := ""
  addr : String := ""
  port : Nat := 22
  autoRootPassword : Bool := false
  deriving Repr, DecidableEq

/-- A connected remote client (RemoteClient in part_001, *SSHClient in
remex.go): its id, its rendered remote address, and the outcome its Close()
call will report (the external connection teardown). -/
structure Client where
  id : String
  addr : String
  closeErr : Option Err := none
  deriving Repr

/-- Stage from src/unnamed/part_001. -/
inductive Stage where
  | connected
  | start
  | finish
  deriving Repr, DecidableEq

/-- ExecResult from src/unnamed/part_001 (Stage-based engine).  The Time field
is set by notifyHandlers from the wall clock and carries no program-derived
information, so it is omitted. -/
structure ExecResult where
  id : String := ""
  command : String := ""
  remoteAddr : String := ""
  stage : Stage
  error : Option Err := none
  output : String := ""
  deriving Repr

/-- Go runtime faults the embedded code can hit. -/
inductive Panic where
  /-- Method call through a nil interface / nil pointer receiver. -/
  | nilPointerDereference
  /-- Assignment to an entry of a nil map. -/
  | nilMapWrite
  deriving Repr, DecidableEq

/-- Result of running a piece of Go code: either it returns a value or the
runtime aborts it with a panic. -/
inductive Outcome (α : Type) where
  | panicked (p : Panic)
  | returned (v : α)
  deriving Repr, DecidableEq

/-! ## Go string primitives

The Go standard-library string functions used by the sources are embedded as
structurally recursive functions over the character list of a string, so that
concrete runs reduce inside the kernel. -/

/-- unicode.IsSpace restricted to the ASCII range (all command text in this
development is ASCII): '\t', '\n', '\v', '\f', '\r', ' '. -/
def goIsSpace (c : Char) : Bool :=
  c = ' ' || c = '\t' || c = '\n' || c = '\r' || c = '\x0b' || c = '\x0c'

/-- Leading whitespace removal, helper for strings.TrimSpace. -/
def dropLeadingSpace : List Char → List Char
  | [] => []
  | c :: rest => if goIsSpace c then dropLeadingSpace rest else c :: rest

/-- strings.TrimSpace: removes leading and trailing whitespace. -/
def goTrim (s : String) : String :=
  ⟨(dropLeadingSpace (dropLeadingSpace s.data.reverse).reverse)⟩

/-- strings.Split(s, " ") on the character list: the list is cut at every
single space character; empty fields between consecutive spaces are kept and
the result is never empty. -/
def splitSpaceChars : List Char → List (List Char)
  | [] => [[]]
  | c :: rest =>
    match splitSpaceChars rest with
    | [] => [[]]
    | cur :: parts => if c = ' ' then [] :: cur :: parts else (c :: cur) :: parts

/-- strings.Split(s, " "). -/
def goSplitSpace (s : String) : List String :=
  (splitSpaceChars s.data).map (fun cs => (⟨cs⟩ : String))

/-- Cut at every whitespace character (helper for strings.Fields). -/
def splitWhitespaceChars : List Char → List (List Char)
  | [] => [[]]
  | c :: rest =>
    match splitWhitespaceChars rest with
    | [] => [[]]
    | cur :: parts =>
      if goIsSpace c then [] :: cur :: parts else (c :: cur) :: parts

/-- strings.Fields: the whitespace-separated fields of a string, with no
empty fields. -/
def goFields (s : String) : List String :=
  ((splitWhitespaceChars s.data).map (fun cs => (⟨cs⟩ : String))).filter
    (fun t => t ≠ "")

/-- strings.HasPrefix(s, p). -/
def goStartsWith (s p : String) : Bool :=
  p.data.isPrefixOf s.data

/-! ## Command registry (src/cmd.go) -/

/-- remexCommand from src/cmd.go: (ctx, client, args...) -> (output, error).
The context and *ssh.Client arguments only reach external collaborators, so a
handler is embedded as a function from the argument list to (output, error). -/
abbrev Handler := List String → String × Option Err

/-- Go map lookup on a registry represented as an association list. -/
def lookupAssoc {β : Type} (l : List (String × β)) (k : String) : Option β :=
  match l with
  | [] => none
  | (k', v) :: rest => if k' = k then some v else lookupAssoc rest k

/-- Number of entries stored under a key.  A Go map holds at most one entry per
key; the association lists built below preserve that invariant. -/
def countKey {β : Type} (l : List (String × β)) (k : String) : Nat :=
  (l.filter (fun p => p.1 = k)).length

/-- Go map assignment m[k] = v: the binding for k is replaced (at most one
entry per key), a new binding is appended otherwise. -/
def insertAssoc {β : Type} (l : List (String × β)) (k : String) (v : β) :
    List (String × β) :=
  if l.any (fun p => p.1 = k) then
    l.map (fun p => if p.1 = k then (k, v) else p)
  else
    l ++ [(k, v)]

/-- Name normalization in RegisterCommand: the "remex." namespace is prepended
when missing (strings.HasPrefix check in src/cmd.go lines 45-47). -/
def normalizeName (name : String) : String :=
  if goStartsWith name "remex." then name else "remex." ++ name

/-- RegisterCommand from src/cmd.go lines 38-51.  The Go handler argument may
be nil; that possibility is embedded as an Option, none meaning nil.  The empty
name is rejected first, then the nil handler, then the normalized name is
stored into the registry map, overwriting any prior entry. -/
def RegisterCommand (reg : List (String × Handler)) (name : String)
    (command : Option Handler) : Except Err (List (String × Handler)) :=
  if name = "" then
    .error .emptyName
  else
    match command with
    | none => .error .nilHandler
    | some f => .ok (insertAssoc reg (normalizeName name) f)

/-- GetCommand from src/cmd.go lines 54-57: exact map lookup. -/
def GetCommand (reg : List (String × Handler)) (name : String) :
    Option Handler × Bool :=
  match lookupAssoc reg name with
  | some f => (some f, true)
  | none => (none, false)

/-! ## Remote execution (src/ssh.go) -/

/-- Which branch of the select in ExecRemoteCommand (src/ssh.go lines 156-168)
fires first: the context-cancellation case or the command-completion case.  The
race is external scheduling, so it is a parameter of the embedding. -/
inductive RaceWinner where
  | cancelled
  | completed
  deriving Repr, DecidableEq

/-- Outcomes of the external SSH collaborator calls made during one
ExecRemoteCommand run: the result of client.NewSession(), of
session.StdinPipe(), which select branch fires, the value of ctx.Err() when
cancelled, and the combined output / error the remote command produced. -/
structure RemoteExecEnv where
  newSessionErr : Option Err := none
  stdinPipeErr : Option Err := none
  winner : RaceWinner := .completed
  ctxErr : Err := .ctxCanceled
  output : String := ""
  cmdErr : Option Err := none

/-- Observable result of ExecRemoteCommand: the returned (output, error) pair
and whether ssh.SIGKILL was sent to the remote process. -/
structure RemoteExecResult where
  output : String
  error : Option Err
  killSignalSent : Bool
  deriving Repr

/-- The select statement of ExecRemoteCommand (src/ssh.go lines 156-168).  On
cancellation: session.Signal(ssh.SIGKILL), then return ("", ctx.Err()) - the
buffered output is dropped and the cancellation error is passed through
unwrapped.  On completion: the captured combined output is returned, together
with fmt.Errorf("command execution failed: %w", err) when the command's error
(for example a non-zero exit status) is non-nil. -/
def raceSelect (env : RemoteExecEnv) : RemoteExecResult :=
  match env.winner with
  | .cancelled => { output := "", error := some env.ctxErr, killSignalSent := true }
  | .completed =>
    match env.cmdErr with
    | some e =>
      { output := env.output, error := some (.execFailed e), killSignalSent := false }
    | none => { output := env.output, error := none, killSignalSent := false }

/-- ExecRemoteCommand from src/ssh.go lines 120-169.  The environment-variable
writes have no observable effect in the model; the password write to stdin
(when autoRootPassword is set and the command starts with "sudo") only touches
the remote process, but its StdinPipe error branch returns early and is kept. -/
def ExecRemoteCommand (clientIsNil : Bool) (password command : String)
    (autoRootPassword : Bool) (env : RemoteExecEnv) : RemoteExecResult :=
  if clientIsNil then
    { output := "", error := some .nilClient, killSignalSent := false }
  else
    match env.newSessionErr with
    | some e =>
      { output := "", error := some (.sessionFailed e), killSignalSent := false }
    | none =>
      if autoRootPassword && goStartsWith command "sudo" then
        match env.stdinPipeErr with
        | some e => { output := "", error := some e, killSignalSent := false }
        | none =>
          let _ := password
          raceSelect env
      else raceSelect env

/-- ExecRemexCommand from src/ssh.go lines 172-191.  The command text is
trimmed and split with strings.Split(s, " "), that is at every single space
character; the first field selects the registry entry, the remaining fields are
the arguments.  strings.Split never returns an empty slice, so the
len(commandSplit) == 0 branch is dead but kept. -/
def ExecRemexCommand (reg : List (String × Handler)) (clientIsNil : Bool)
    (command : String) : String × Option Err :=
  if clientIsNil then ("", some .nilClient)
  else
    match goSplitSpace (goTrim command) with
    | [] => ("", some .invalidCommand)
    | name :: args =>
      match lookupAssoc reg name with
      | some f =>
        match (f args).2 with
        | some e => ("", some (.remexCmdFailed name e))
        | none => ((f args).1, none)
      | none => ("", some (.unknownRemexCommand name))

/-- SSHClient.ExecuteCommand from src/ssh.go lines 89-99: a nil connection is
rejected, a command with the "remex." namespace goes through the registry,
anything else runs as a literal remote shell command line. -/
def ExecuteCommand (reg : List (String × Handler)) (clientIsNil : Bool)
    (config : SSHConfig) (renv : RemoteExecEnv) (command : String) :
    String × Option Err :=
  if clientIsNil then ("", some .nilClient)
  else if goStartsWith command "remex." then
    ExecRemexCommand reg false command
  else
    let r := ExecRemoteCommand false config.password command config.autoRootPassword renv
    (r.output, r.error)

/-- In-band dispatch as the spec sentence for C6 reads: the command text is
split on whitespace (strings.Fields) into a command name and argument list.
It differs from ExecRemexCommand only in the splitting of the command text,
and is compared with it in the theorems below. -/
def ExecRemexCommandSpecWS (reg : List (String × Handler)) (clientIsNil : Bool)
    (command : String) : String × Option Err :=
  if clientIsNil then ("", some .nilClient)
  else
    match goFields command with
    | [] => ("", some .invalidCommand)
    | name :: args =>
      match lookupAssoc reg name with
      | some f =>
        match (f args).2 with
        | some e => ("", some (.remexCmdFailed name e))
        | none => ((f args).1, none)
      | none => ("", some (.unknownRemexCommand name))

/-- ExecuteCommand as the spec sentence reads (whitespace splitting of in-band
commands), for comparison with the source behaviour. -/
def ExecuteCommandSpecWS (reg : List (String × Handler)) (clientIsNil : Bool)
    (config : SSHConfig) (renv : RemoteExecEnv) (command : String) :
    String × Option Err :=
  if clientIsNil then ("", some .nilClient)
  else if goStartsWith command "remex." then
    ExecRemexCommandSpecWS reg false command
  else
    let r := ExecRemoteCommand false config.password command config.autoRootPassword renv
    (r.output, r.error)

/-! ## Stage-based engine (src/unnamed/part_001, first document) -/

/-- The ExecResult literal built on the failure branch of Connect
(src/unnamed/part_001 line 133), given some id value: ID, Stage and RemoteAddr
are set, while Error and Output stay at their zero values - in particular the
event does not carry the dial error. -/
def connectFailureEvent (clientID : String) (config : SSHConfig) : ExecResult :=
  { id := clientID, stage := .connected, remoteAddr := config.addr }

/-- Connect from src/unnamed/part_001 lines 120-159.  dial embeds
r.newSSHClient (NewSSHClient by default); ctxDone embeds r.ctx.Done() (the
select checks it before each host); configs is the r.configs map in its
iteration order; clients is the r.clients map; emitted collects the arguments
of the notifyHandlers calls that were actually reached.

On a dial failure the code appends the host-wrapped error to connectionErrors
and then calls r.notifyHandlers(ExecResult{ID: client.ID(), ...}); client is
the nil RemoteClient returned together with the error, so the client.ID() call
dereferences a nil interface and the program panics before the event is built.
On success, an existing session under the same id is closed and the new client
is stored.  After the loop, fmt.Errorf("no successful connections: %w",
errors.Join(connectionErrors...)) is returned when the clients map is empty. -/
def ConnectP1 (dial : String → SSHConfig → Except Err Client) (ctxDone : Bool) :
    List (String × SSHConfig) → List (String × Client) → List ExecResult →
    List Err → List (String × Client) × List ExecResult × Outcome (Option Err)
  | [], clients, emitted, connErrs =>
    if clients.isEmpty then
      (clients, emitted, .returned (some (.noConnections connErrs)))
    else (clients, emitted, .returned none)
  | (id, config) :: rest, clients, emitted, connErrs =>
    if ctxDone then (clients, emitted, .returned (some .ctxCanceled))
    else
      match dial id config with
      | .error e =>
        let _ := connErrs ++ [.hostWrapped id config.addr e]
        (clients, emitted, .panicked .nilPointerDereference)
      | .ok client =>
        ConnectP1 dial ctxDone rest (insertAssoc clients id client) emitted connErrs

/-- Every send on the r.results channel in the package: no statement ever
writes to r.results (it is created in NewWithContext and only read), so the
channel never yields a value. -/
def resultsChannelValues : List ExecResult := []

/-- Observable effect of one notifyHandlers call in src/unnamed/part_001 lines
103-117, with handlers identified by their position in r.handlers:
which (handler, event) invocations happen before the call returns, and which
the spawned goroutine ever performs.  The function sets result.Time, takes the
read lock, starts a goroutine that ranges over r.results applying every
handler to each value read from the channel, and returns; the result argument
itself is never sent anywhere, so the goroutine's deliveries are exactly the
handler applications to values sent on r.results. -/
structure NotifyEffect where
  invokedBeforeReturn : List (Nat × ExecResult)
  deliveredByGoroutine : List (Nat × ExecResult)

/-- notifyHandlers from src/unnamed/part_001 lines 103-117. -/
def notifyHandlersP1 (handlerCount : Nat) (result : ExecResult) : NotifyEffect :=
  let _ := result
  { invokedBeforeReturn := []
    deliveredByGoroutine :=
      resultsChannelValues.flatMap
        (fun res => (List.range handlerCount).map (fun h => (h, res))) }

/-- The Start-stage event emitted before a command executes (src/unnamed/
part_001 line 209). -/
def mkStartEvent (id addr command : String) : ExecResult :=
  { id := id, command := command, remoteAddr := addr, stage := .start }

/-- The Finish-stage event emitted after a command executes, carrying its
output and error (src/unnamed/part_001 lines 213-214). -/
def mkFinishEvent (id addr command output : String) (error : Option Err) :
    ExecResult :=
  { id := id, command := command, remoteAddr := addr, stage := .finish,
    output := output, error := error }

/-- execCommands from src/unnamed/part_001 lines 195-225.  exec embeds
client.ExecuteCommand(r.ctx, command) for this host's client; ctxDone embeds
r.ctx.Done(), checked before each command (kept constant over the run: the
claims proved below concern runs during which the context state does not
change).  Returns the events passed to notifyHandlers, in order, and the
task's returned error: nil after the loop, ctx.Err() on cancellation, and
fmt.Errorf("failed to execute command %q: %w", command, err) on the first
command failure, after which no further command runs. -/
def execCommandsP1 (exec : String → String × Option Err) (id addr : String)
    (ctxDone : Bool) : List String → List ExecResult × Option Err
  | [] => ([], none)
  | command :: rest =>
    if ctxDone then ([], some .ctxCanceled)
    else
      match (exec command).2 with
      | some e =>
        ([mkStartEvent id addr command,
          mkFinishEvent id addr command (exec command).1 (some e)],
         some (.cmdFailed command e))
      | none =>
        let r := execCommandsP1 exec id addr ctxDone rest
        (mkStartEvent id addr command ::
          mkFinishEvent id addr command (exec command).1 none :: r.1, r.2)

/-- The commands a per-host task attempts: none once the context is done, the
whole list while every command succeeds, and everything up to and including
the first failing command otherwise.  Spec-side description of the execution
cutoff, compared against execCommandsP1 in the theorems below. -/
def attemptedCommands (exec : String → String × Option Err) (ctxDone : Bool) :
    List String → List String
  | [] => []
  | command :: rest =>
    if ctxDone then []
    else
      match (exec command).2 with
      | some _ => [command]
      | none => command :: attemptedCommands exec ctxDone rest

/-- One per-host task as started by Execute: the host's client, its command
list, and the behaviour of its remote executions. -/
structure HostTask where
  client : Client
  commands : List String
  exec : String → String × Option Err

/-- Runtime state of one errgroup goroutine running execCommands: how many
commands it has completed and, once it has returned, its result. -/
structure TaskRun where
  task : HostTask
  pos : Nat := 0
  finished : Option (Option Err) := none

/-- Shared state of one Execute run: the per-host goroutines, the shared
errgroup context's cancellation flag, and the events passed to the
notification routine, in emission order. -/
structure ExecSt where
  tasks : List TaskRun
  ctxCancelled : Bool := false
  events : List ExecResult := []

/-- One scheduling step of the Execute run of src/unnamed/part_001: goroutine
i runs one iteration of the execCommands loop (lines 201-221).  The engine
context comes from errgroup.WithContext (line 74), so the first task that
returns a non-nil error cancels it for every other task - that is the
ctxCancelled flag.  While commands remain, the loop first checks
r.ctx.Done() and returns ctx.Err() when the context is cancelled; otherwise
it emits the Start event, executes the command, emits the Finish event, and
on error returns the wrapped failure - which, through the errgroup, cancels
the shared context.  Interleaving is at command granularity: a cancellation
that lands between a sibling's checks takes effect at its next check.  A
finished goroutine is not scheduled again (steps on it are no-ops). -/
def stepTask (st : ExecSt) (i : Nat) : ExecSt :=
  match st.tasks[i]? with
  | none => st
  | some tr =>
    match tr.finished with
    | some _ => st
    | none =>
      match tr.task.commands[tr.pos]? with
      | none => { st with tasks := st.tasks.set i { tr with finished := some none } }
      | some command =>
        if st.ctxCancelled then
          { st with tasks :=
              st.tasks.set i { tr with finished := some (some .ctxCanceled) } }
        else
          let output := (tr.task.exec command).1
          let startEv := mkStartEvent tr.task.client.id tr.task.client.addr command
          match (tr.task.exec command).2 with
          | some e =>
            { st with
              tasks := st.tasks.set i
                { tr with finished := some (some (.cmdFailed command e)) }
              ctxCancelled := true
              events := st.events ++
                [startEv, mkFinishEvent tr.task.client.id tr.task.client.addr
                  command output (some e)] }
          | none =>
            { st with
              tasks := st.tasks.set i { tr with pos := tr.pos + 1 }
              events := st.events ++
                [startEv, mkFinishEvent tr.task.client.id tr.task.client.addr
                  command output none] }

/-- An Execute run over the given per-host tasks under a given interleaving:
the schedule lists which goroutine takes the next execCommands iteration. -/
def runSchedule (tasks : List HostTask) (schedule : List Nat) : ExecSt :=
  schedule.foldl stepTask { tasks := tasks.map (fun t => { task := t }) }

/-- The close errors collected by the loop in Close (src/unnamed/part_001
lines 268-273): the Close() results of the stored clients, nil results
skipped. -/
def closeClientErrs : List (String × Client) → List Err
  | [] => []
  | (_, c) :: rest =>
    match c.closeErr with
    | some e => e :: closeClientErrs rest
    | none => closeClientErrs rest

/-- Observable effect of Close: whether the shared context was cancelled,
which stored sessions had Close() called on them, and the returned error. -/
structure CloseResult where
  contextCancelled : Bool
  closedSessions : List Client
  result : Option Err

/-- Close from src/unnamed/part_001 lines 262-281 (identical in src/remex.go
lines 232-251).  waitErr embeds r.errGroup.Wait(): the first error any task
returned, nil when every task succeeded.  The code cancels the context, waits,
and returns the wait error immediately when it is non-nil - in that case the
session-closing loop is never reached.  Otherwise every stored client is
closed and the collected close errors are aggregated into one error. -/
def CloseP1 (waitErr : Option Err) (clients : List (String × Client)) :
    CloseResult :=
  match waitErr with
  | some e => { contextCancelled := true, closedSessions := [], result := some e }
  | none =>
    let errs := closeClientErrs clients
    { contextCancelled := true
      closedSessions := clients.map (fun p => p.2)
      result := if errs.isEmpty then none else some (.closeErrors errs) }

/-! ## Index-based engine (src/remex.go) -/

/-- A Go map value, which may be nil (the zero value).  Reads from a nil map
succeed (length 0, lookups miss); a write to a nil map aborts the program. -/
def GoMap (β : Type) := Option (List (String × β))

/-- len(m) for a possibly-nil Go map. -/
def goMapLen {β : Type} : GoMap β → Nat
  | none => 0
  | some l => l.length

/-- m[k] = v for a possibly-nil Go map. -/
def goMapWrite {β : Type} : GoMap β → String → β → Outcome (GoMap β)
  | none, _, _ => .panicked .nilMapWrite
  | some l, k, v => .returned (some (insertAssoc l k v))

/-- The clients field of the Remex value built by NewWithConfig in
src/remex.go lines 81-90: the struct literal never initializes the map, so the
field holds Go's zero value, the nil map.  NewWithContext (lines 93-104)
obtains its value from NewWithConfig and leaves that field unchanged. -/
def newWithConfigClients : GoMap Client := none

/-- ExecResult of src/remex.go (Index-based engine); index -1 marks a
connection-failure report. -/
structure ExecResultGo where
  index : Int := 0
  remoteAddr : String := ""
  error : Option Err := none
  output : String := ""
  deriving Repr

/-- Config from src/remex.go lines 17-22. -/
structure ConfigGo where
  name : String := ""
  sshConfig : SSHConfig := {}
  commands : List String := []

/-- Connect from src/remex.go lines 129-166.  On a dial failure the error is
collected and reported through notifyHandlers as an ExecResult with Index -1
carrying the error, and the loop continues; on success the client is stored
with r.clients[config.Name] = client - a write that panics when the map is
still the nil value NewWithConfig left in place. -/
def ConnectGo (dial : String → SSHConfig → Except Err Client) (ctxDone : Bool) :
    List ConfigGo → GoMap Client → List ExecResultGo → List Err →
    GoMap Client × List ExecResultGo × Outcome (Option Err)
  | [], clients, emitted, connErrs =>
    if goMapLen clients = 0 then
      (clients, emitted, .returned (some (.noConnections connErrs)))
    else (clients, emitted, .returned none)
  | config :: rest, clients, emitted, connErrs =>
    if ctxDone then (clients, emitted, .returned (some .ctxCanceled))
    else
      match dial config.name config.sshConfig with
      | .error e =>
        ConnectGo dial ctxDone rest clients
          (emitted ++ [{ index := -1, remoteAddr := config.sshConfig.addr,
                         error := some e }])
          (connErrs ++ [e])
      | .ok client =>
        match goMapWrite clients config.name client with
        | .panicked p => (clients, emitted, .panicked p)
        | .returned clients' => ConnectGo dial ctxDone rest clients' emitted connErrs

/-! ## Concrete fixtures

Concrete hosts, dial environments, command behaviours and registries used by
the witnesses and counterexamples below. -/

/-- Host configuration for host a. -/
def cfgA : SSHConfig := { username := "root", password := "pa", addr := "10.0.0.1" }

/-- Host configuration for host b. -/
def cfgB : SSHConfig := { username := "root", password := "pb", addr := "10.0.0.2" }

/-- A dial environment in which host a is unreachable and every other host
connects. -/
def dialAFails : String → SSHConfig → Except Err Client := fun id config =>
  if id = "a" then .error (.dialFailed "connection refused")
  else .ok { id := id, addr := config.addr }

/-- A dial environment in which every host connects. -/
def dialAllOk : String → SSHConfig → Except Err Client := fun id config =>
  .ok { id := id, addr := config.addr }

/-- A remote-execution behaviour in which the command "bad" fails with a
non-zero exit status and every other command echoes. -/
def execBadFails : String → String × Option Err := fun c =>
  if c = "bad" then ("", some (.other "exit status 1")) else ("ok:" ++ c, none)

/-- Per-host task for host h1 whose single command fails. -/
def taskFailOnly : HostTask :=
  { client := { id := "h1", addr := "10.0.0.1:22" },
    commands := ["bad"], exec := execBadFails }

/-- Per-host task for host h2 whose two commands both succeed. -/
def taskTwoOk : HostTask :=
  { client := { id := "h2", addr := "10.0.0.2:22" },
    commands := ["c1", "c2"], exec := fun c => ("ok:" ++ c, none) }

/-- The Execute run state before any scheduling step, for hosts h1 and h2. -/
def stStart : ExecSt := { tasks := [{ task := taskFailOnly }, { task := taskTwoOk }] }

/-- The state after h1's goroutine takes one step from stStart: h1's command
failed, so the shared context is cancelled. -/
def stAfterFail : ExecSt := stepTask stStart 0

/-- A Start-stage event used as a concrete notification argument. -/
def evStartA : ExecResult := mkStartEvent "a" "10.0.0.1:22" "uptime"

/-- A stored session whose Close() succeeds. -/
def clientH : Client := { id := "h", addr := "10.0.0.1:22" }

/-- A handler standing in for a registered in-band command; the built-in
handlers run through external SFTP / shell collaborators, so for dispatch
behaviour only the returned pair matters. -/
def hSh : Handler := fun _ => ("handled", none)

/-- A registry holding one entry under the namespaced name "remex.sh". -/
def regSh : List (String × Handler) := [("remex.sh", hSh)]

/-- The initial registry from src/cmd.go lines 28-35.  The built-in handlers
call external SFTP / shell collaborators; for the registry-level claims only
their identity matters, so each is embedded as a distinct handler value. -/
def builtinHandler (tag : String) : Handler := fun _ => ("", some (.other tag))

/-- The registry variable of src/cmd.go with its four built-in entries. -/
def initialRegistry : List (String × Handler) :=
  [("remex.upload", builtinHandler "upload"),
   ("remex.download", builtinHandler "download"),
   ("remex.sh", builtinHandler "sh"),
   ("remex.mkdir", builtinHandler "mkdir")]

/-- First handler registered under "upload" in the C9 scenario. -/
def hUp1 : Handler := fun _ => ("h1", none)

/-- Second handler registered under "upload" in the C9 scenario. -/
def hUp2 : Handler := fun _ => ("h2", none)

/-- The registry after RegisterCommand("upload", hUp1) on the initial
registry. -/
def regAfterFirst : List (String × Handler) :=
  insertAssoc initialRegistry (normalizeName "upload") hUp1

/-- The registry after registering hUp1 and then hUp2 under "upload". -/
def regAfterSecond : List (String × Handler) :=
  insertAssoc regAfterFirst (normalizeName "upload") hUp2

/-! ## Helper lemmas -/

/-- Looking up the key just written always finds the written value. -/
theorem lookupAssoc_insertAssoc_self {β : Type} (l : List (String × β))
    (k : String) (v : β) : lookupAssoc (insertAssoc l k v) k = some v := by
  unfold insertAssoc
  split
  · rename_i hany
    induction l with
    | nil => simp at hany
    | cons p rest ih =>
      simp only [List.map_cons]
      by_cases hp : p.1 = k
      · rw [if_pos hp]
        simp [lookupAssoc]
      · rw [if_neg hp]
        simp only [lookupAssoc, hp, if_false]
        apply ih
        simpa [List.any_cons, hp] using hany
  · induction l with
    | nil => simp [lookupAssoc]
    | cons p rest ih =>
      rename_i hany
      have hp : ¬ p.1 = k := by
        intro h
        exact hany (by simp [List.any_cons, h])
      simp only [List.cons_append, lookupAssoc, hp, if_false]
      exact ih (by intro h; exact hany (by simp [List.any_cons]; right; simpa using h))

/-- A run over commands that all succeed continues into the appended rest:
the returned task error is that of the rest. -/
theorem execCommandsP1_snd_append (exec : String → String × Option Err)
    (id addr : String) (pre rest : List String)
    (h : ∀ p ∈ pre, (exec p).2 = none) :
    (execCommandsP1 exec id addr false (pre ++ rest)).2 =
      (execCommandsP1 exec id addr false rest).2 := by
  induction pre with
  | nil => simp
  | cons c cs ih =>
    have hc : (exec c).2 = none := h c (by simp)
    simp only [List.cons_append, execCommandsP1, hc, Bool.false_eq_true,
      if_false]
    exact ih (fun p hp => h p (by simp [hp]))

/-- The attempted commands of a run whose leading commands all succeed are
those leading commands followed by the attempts over the rest. -/
theorem attemptedCommands_append (exec : String → String × Option Err)
    (pre rest : List String) (h : ∀ p ∈ pre, (exec p).2 = none) :
    attemptedCommands exec false (pre ++ rest) =
      pre ++ attemptedCommands exec false rest := by
  induction pre with
  | nil => simp
  | cons c cs ih =>
    have hc : (exec c).2 = none := h c (by simp)
    simp only [List.cons_append, attemptedCommands, hc, Bool.false_eq_true,
      if_false]
    show c :: attemptedCommands exec false (cs ++ rest) =
      c :: (cs ++ attemptedCommands exec false rest)
    rw [ih (fun p hp => h p (by simp [hp]))]

/-! ## Claims -/

/-- C1: the claim reads that after Connect() returns, the stored sessions are
exactly the hosts whose dial succeeded, with a NoConnections error joining the
individual dial errors returned exactly when that set is empty, and success
otherwise even under partial connectivity.  The code aborts instead: on the
host-config collection {a, b} where a's dial fails and b's succeeds, the
Stage-based Connect (src/unnamed/part_001 lines 128-135) panics on the
client.ID() call against the nil client of host a before any session is
stored, and the Index-based Connect (src/remex.go lines 129-166) on the same
collection panics writing b's session into the nil clients map NewWithConfig
left uninitialized.  No return value - success, NoConnections, or otherwise -
is produced on either path. -/
theorem C1_connect_aborts_instead_of_tolerating_partial_failure :
    ConnectP1 dialAFails false [("a", cfgA), ("b", cfgB)] [] [] [] =
      ([], [], .panicked .nilPointerDereference) ∧
    (ConnectGo dialAFails false
        [{ name := "a", sshConfig := cfgA }, { name := "b", sshConfig := cfgB }]
        newWithConfigClients [] []).2.2 = .panicked .nilMapWrite := by
  exact ⟨rfl, rfl⟩

/-- C4: the claim reads that Close() cancels the context, waits for tasks, and
then closes every stored session whether or not tasks failed.  The code
returns the errgroup wait error before the closing loop: with one stored
session and a task that failed (for example with the cancellation error that
Close's own cancel provokes in any in-flight task), Close returns the task
error and closes no session; only when every task succeeded does it close the
stored sessions. -/
theorem C4_close_skips_sessions_after_task_error :
    CloseP1 (some .ctxCanceled) [("h", clientH)] =
      { contextCancelled := true, closedSessions := [], result := some .ctxCanceled } ∧
    CloseP1 none [("h", clientH)] =
      { contextCancelled := true, closedSessions := [clientH], result := none } := by
  exact ⟨rfl, rfl⟩

/-- C5: the claim reads that every emitted event is delivered to each
registered handler synchronously, before the notifying call returns.  The
Stage-based notifyHandlers (src/unnamed/part_001 lines 103-117) invokes no
handler before returning and its spawned goroutine ranges over the r.results
channel, on which nothing is ever sent - so no handler invocation ever happens
at all, for any handler count and any event. -/
theorem C5_notify_never_delivers_to_handlers :
    ∀ (handlerCount : Nat) (result : ExecResult),
      (notifyHandlersP1 handlerCount result).invokedBeforeReturn = [] ∧
      (notifyHandlersP1 handlerCount result).deliveredByGoroutine = [] := by
  intro handlerCount result
  exact ⟨rfl, rfl⟩

/-- C8: the claim reads that a host whose dial fails during Connect() is
reported to handlers as a Connected-stage event carrying that host's error,
and that the loop continues.  On the failing host a the code panics on the
nil-client ID() call before the event is emitted (nothing is emitted at all
and the loop does not continue), and the event literal it was about to build
(src/unnamed/part_001 line 133) carries no error in any case: its Error field
is left at the zero value. -/
theorem C8_connect_failure_event_lacks_error_and_panics :
    (ConnectP1 dialAFails false [("a", cfgA)] [] [] []).2.2 =
      .panicked .nilPointerDereference ∧
    (ConnectP1 dialAFails false [("a", cfgA)] [] [] []).2.1 = [] ∧
    ∀ (clientID : String),
      (connectFailureEvent clientID cfgA).error = none ∧
      (connectFailureEvent clientID cfgA).stage = .connected := by
  exact ⟨rfl, rfl, fun _ => ⟨rfl, rfl⟩⟩

/-- C10: the implicit claim reads that on an engine built by NewWithConfig or
NewWithContext of src/remex.go, Connect() stores each successful session under
the host's name and returns normally.  NewWithConfig never initializes the
clients map, so it is the nil map; reads from it succeed but the store
r.clients[config.Name] = client panics on the first successful dial. -/
theorem C10_connect_on_new_engine_panics_on_first_success :
    goMapLen newWithConfigClients = 0 ∧
    (ConnectGo dialAllOk false [{ name := "b", sshConfig := cfgB }]
        newWithConfigClients [] []).2.2 = .panicked .nilMapWrite := by
  exact ⟨rfl, rfl⟩

/-- Witness for C5 at one registered handler and a concrete event: neither
before the call returns nor ever afterwards is the handler invoked with it. -/
theorem C5_witness :
    (notifyHandlersP1 1 evStartA).invokedBeforeReturn = [] ∧
    (notifyHandlersP1 1 evStartA).deliveredByGoroutine = [] :=
  C5_notify_never_delivers_to_handlers 1 evStartA

/-- C2 counterexample: the claim reads that when a command fails on one host,
the tasks of all other hosts continue to their own completion or failure
independently.  Host h2's two commands succeed on their own (its task run in
isolation completes without error), but in the Execute run with host h1 -
whose single command fails - under the interleaving h2, h1, h2, the failure of
h1 cancels the shared errgroup context and h2's task stops at its next
pre-command check: it finishes with the cancellation error after one command,
its second command never executed. -/
theorem C2_counterexample_failure_cancels_sibling_host :
    (execCommandsP1 taskTwoOk.exec "h2" "10.0.0.2:22" false ["c1", "c2"]).2 =
      none ∧
    (runSchedule [taskFailOnly, taskTwoOk] [1, 0, 1]).ctxCancelled = true ∧
    (runSchedule [taskFailOnly, taskTwoOk] [1, 0, 1]).tasks.map
        (fun tr => (tr.pos, tr.finished)) =
      [(0, some (some (.cmdFailed "bad" (.other "exit status 1")))),
       (1, some (some .ctxCanceled))] := by
  exact ⟨rfl, rfl, rfl⟩

/-- C2 as amended: if the command at position k fails on a host (its earlier
commands having succeeded, with no cancellation arriving first), commands
k+1..n are never executed on that host and the task returns that failure
wrapped with the failing command; the failure also cancels the shared
errgroup context, so every other host's task, at its next pre-command
cancellation check, stops with the cancellation error and runs none of its
remaining commands instead of continuing independently. -/
theorem C2_amended_failure_stops_host_and_cancels_others :
    (∀ (exec : String → String × Option Err) (id addr : String)
        (pre post : List String) (c : String) (e : Err),
      (∀ p ∈ pre, (exec p).2 = none) → (exec c).2 = some e →
      attemptedCommands exec false (pre ++ c :: post) = pre ++ [c] ∧
      (execCommandsP1 exec id addr false (pre ++ c :: post)).2 =
        some (.cmdFailed c e)) ∧
    (∀ (st : ExecSt) (i : Nat) (tr : TaskRun) (command : String) (e : Err),
      st.tasks[i]? = some tr → tr.finished = none → st.ctxCancelled = false →
      tr.task.commands[tr.pos]? = some command →
      (tr.task.exec command).2 = some e →
      (stepTask st i).ctxCancelled = true ∧
      (stepTask st i).tasks[i]? =
        some { tr with finished := some (some (.cmdFailed command e)) }) ∧
    (∀ (st : ExecSt) (i : Nat) (tr : TaskRun) (command : String),
      st.tasks[i]? = some tr → tr.finished = none → st.ctxCancelled = true →
      tr.task.commands[tr.pos]? = some command →
      (stepTask st i).tasks[i]? =
        some { tr with finished := some (some .ctxCanceled) } ∧
      (stepTask st i).events = st.events) := by
  refine ⟨?_, ?_, ?_⟩
  · intro exec id addr pre post c e hpre hc
    refine ⟨?_, ?_⟩
    · rw [attemptedCommands_append exec pre _ hpre]
      simp [attemptedCommands, hc]
    · rw [execCommandsP1_snd_append exec id addr pre _ hpre]
      simp [execCommandsP1, hc]
  · intro st i tr command e hi hfin hctx hcmd hex
    have hlen : i < st.tasks.length := by
      by_contra hge
      rw [List.getElem?_eq_none (by omega)] at hi
      exact Option.noConfusion hi
    have hset := List.getElem?_set_eq_of_lt
      { tr with finished := some (some (.cmdFailed command e)) } hlen
    constructor
    · simp [stepTask, hi, hfin, hctx, hcmd, hex]
    · simp only [stepTask, hi, hfin, hctx, hcmd, hex, Bool.false_eq_true, if_false]
      exact hset
  · intro st i tr command hi hfin hctx hcmd
    have hlen : i < st.tasks.length := by
      by_contra hge
      rw [List.getElem?_eq_none (by omega)] at hi
      exact Option.noConfusion hi
    have hset := List.getElem?_set_eq_of_lt
      { tr with finished := some (some Err.ctxCanceled) } hlen
    constructor
    · simp only [stepTask, hi, hfin, hctx, hcmd, eq_self_iff_true, if_true]
      exact hset
    · simp only [stepTask, hi, hfin, hctx, hcmd, eq_self_iff_true, if_true]

/-- Witness for the amended C2: on host h1 the commands after the failing one
are never attempted and the task returns the wrapped failure; h1's failing
step from the initial two-host state cancels the shared context, and h2's
goroutine, scheduled next, stops with the cancellation error emitting no
further events. -/
theorem C2_witness :
    attemptedCommands execBadFails false ["a1", "bad", "a3"] = ["a1", "bad"] ∧
    (execCommandsP1 execBadFails "h1" "10.0.0.1:22" false ["a1", "bad", "a3"]).2 =
      some (.cmdFailed "bad" (.other "exit status 1")) ∧
    (stepTask stStart 0).ctxCancelled = true ∧
    (stepTask stStart 0).tasks[0]? =
      some { task := taskFailOnly,
             finished := some (some (.cmdFailed "bad" (.other "exit status 1"))) } ∧
    (stepTask stAfterFail 1).tasks[1]? =
      some { task := taskTwoOk, finished := some (some .ctxCanceled) } ∧
    (stepTask stAfterFail 1).events = stAfterFail.events := by
  have h1 := C2_amended_failure_stops_host_and_cancels_others.1 execBadFails "h1"
    "10.0.0.1:22" ["a1"] ["a3"] "bad" (.other "exit status 1")
    (by intro p hp; rw [List.mem_singleton] at hp; subst hp; rfl) rfl
  have h2 := C2_amended_failure_stops_host_and_cancels_others.2.1 stStart 0
    { task := taskFailOnly } "bad" (.other "exit status 1") rfl rfl rfl rfl rfl
  have h3 := C2_amended_failure_stops_host_and_cancels_others.2.2 stAfterFail 1
    { task := taskTwoOk } "c1" rfl rfl rfl rfl
  exact ⟨h1.1, h1.2, h2.1, h2.2, h3.1, h3.2⟩

/-- C3: the events a per-host task passes to the notification routine are
exactly, for each command it attempts and in list order, one Start-stage event
for that command on that host immediately followed by one Finish-stage event
for the same command and host carrying the execution's output and error -
never zero, duplicated, or reversed Start/Finish events. -/
theorem C3_one_start_then_one_finish_per_attempted_command :
    ∀ (exec : String → String × Option Err) (id addr : String) (ctxDone : Bool)
      (commands : List String),
      (execCommandsP1 exec id addr ctxDone commands).1 =
        (attemptedCommands exec ctxDone commands).flatMap
          (fun c => [mkStartEvent id addr c,
                     mkFinishEvent id addr c (exec c).1 (exec c).2]) := by
  intro exec id addr ctxDone commands
  induction commands with
  | nil => simp [execCommandsP1, attemptedCommands]
  | cons c cs ih =>
    cases ctxDone with
    | true => simp [execCommandsP1, attemptedCommands]
    | false =>
      cases hce : (exec c).2 with
      | some e => simp [execCommandsP1, attemptedCommands, hce]
      | none => simp [execCommandsP1, attemptedCommands, hce, ih]

/-- Witness for C3 on a concrete run in which the second command fails. -/
theorem C3_witness :
    (execCommandsP1 execBadFails "h1" "10.0.0.1:22" false ["a1", "bad", "a3"]).1 =
      (attemptedCommands execBadFails false ["a1", "bad", "a3"]).flatMap
        (fun c => [mkStartEvent "h1" "10.0.0.1:22" c,
                   mkFinishEvent "h1" "10.0.0.1:22" c (execBadFails c).1
                     (execBadFails c).2]) :=
  C3_one_start_then_one_finish_per_attempted_command execBadFails "h1"
    "10.0.0.1:22" false ["a1", "bad", "a3"]

/-- C6 counterexample: the claim reads that an in-band command is split on
whitespace into name and arguments.  The source splits on single space
characters only (strings.Split(s, " ") after TrimSpace).  On the command
"remex.sh\techo hi", with "remex.sh" registered, whitespace splitting
dispatches the registered handler, while the code takes "remex.sh\techo" as
the name and fails with the unknown-command error. -/
theorem C6_counterexample_tab_separated_command :
    ExecuteCommand regSh false cfgA {} "remex.sh\techo hi" =
      ("", some (.unknownRemexCommand "remex.sh\techo")) ∧
    ExecuteCommandSpecWS regSh false cfgA {} "remex.sh\techo hi" =
      ("handled", none) ∧
    (ExecuteCommand regSh false cfgA {} "remex.sh\techo hi").1 ≠
      (ExecuteCommandSpecWS regSh false cfgA {} "remex.sh\techo hi").1 := by
  exact ⟨rfl, rfl, by decide⟩

/-- C6 as amended: for a command beginning with "remex.", ExecuteCommand
trims the text and splits it on single space characters into a command name
and argument list, dispatching through the registry, where an unregistered
name fails with the unknown-command error and a handler's own error is
returned wrapped with the command name; any other string runs as a literal
remote shell command line. -/
theorem C6_amended_dispatch_contract :
    ∀ (reg : List (String × Handler)) (config : SSHConfig)
      (renv : RemoteExecEnv) (command : String),
      (goStartsWith command "remex." = false →
        ExecuteCommand reg false config renv command =
          ((ExecRemoteCommand false config.password command
              config.autoRootPassword renv).output,
           (ExecRemoteCommand false config.password command
              config.autoRootPassword renv).error)) ∧
      (∀ (name : String) (args : List String),
        goStartsWith command "remex." = true →
        goSplitSpace (goTrim command) = name :: args →
        (lookupAssoc reg name = none →
          ExecuteCommand reg false config renv command =
            ("", some (.unknownRemexCommand name))) ∧
        (∀ f : Handler, lookupAssoc reg name = some f →
          (∀ e, (f args).2 = some e →
            ExecuteCommand reg false config renv command =
              ("", some (.remexCmdFailed name e))) ∧
          ((f args).2 = none →
            ExecuteCommand reg false config renv command =
              ((f args).1, none)))) := by
  intro reg config renv command
  constructor
  · intro h
    simp [ExecuteCommand, h]
  · intro name args h1 h2
    constructor
    · intro hnone
      simp [ExecuteCommand, ExecRemexCommand, h1, h2, hnone]
    · intro f hf
      constructor
      · intro e he
        simp [ExecuteCommand, ExecRemexCommand, h1, h2, hf, he]
      · intro hok
        simp [ExecuteCommand, ExecRemexCommand, h1, h2, hf, hok]

/-- Witness for the amended C6: the space-separated command "remex.sh echo hi"
dispatches the registered handler. -/
theorem C6_witness :
    ExecuteCommand regSh false cfgA {} "remex.sh echo hi" = ("handled", none) := by
  exact (((C6_amended_dispatch_contract regSh cfgA {} "remex.sh echo hi").2
    "remex.sh" ["echo", "hi"] rfl rfl).2 hSh rfl).2 rfl

/-- C7: with a live client and an open execution channel, if the governing
context wins the completion race a kill signal is sent to the remote process
and the cancellation error is returned unchanged with empty output (buffered
output is discarded); if the command completes with an error (for example a
non-zero exit status) the captured combined output is returned alongside the
wrapped error. -/
theorem C7_cancellation_and_nonzero_exit :
    ∀ (password command : String) (autoRootPassword : Bool)
      (env : RemoteExecEnv),
      env.newSessionErr = none → env.stdinPipeErr = none →
      (env.winner = .cancelled →
        ExecRemoteCommand false password command autoRootPassword env =
          { output := "", error := some env.ctxErr, killSignalSent := true }) ∧
      (∀ e, env.winner = .completed → env.cmdErr = some e →
        ExecRemoteCommand false password command autoRootPassword env =
          { output := env.output, error := some (.execFailed e),
            killSignalSent := false }) := by
  intro password command autoRootPassword env h1 h2
  have hrun : ExecRemoteCommand false password command autoRootPassword env =
      raceSelect env := by
    simp [ExecRemoteCommand, h1, h2]
  constructor
  · intro hw
    rw [hrun]
    simp [raceSelect, hw]
  · intro e hw he
    rw [hrun]
    simp [raceSelect, hw, he]

/-- Witness for C7: a cancelled run returns the cancellation error with empty
output and sends the kill signal; a completed run with a non-zero exit returns
the captured output alongside the wrapped error. -/
theorem C7_witness :
    ExecRemoteCommand false "pw" "uptime" false { winner := .cancelled } =
      { output := "", error := some .ctxCanceled, killSignalSent := true } ∧
    ExecRemoteCommand false "pw" "uptime" false
        { output := "partial", cmdErr := some (.other "exit status 2") } =
      { output := "partial", error := some (.execFailed (.other "exit status 2")),
        killSignalSent := false } := by
  exact ⟨(C7_cancellation_and_nonzero_exit "pw" "uptime" false
            { winner := .cancelled } rfl rfl).1 rfl,
         (C7_cancellation_and_nonzero_exit "pw" "uptime" false
            { output := "partial", cmdErr := some (.other "exit status 2") }
            rfl rfl).2 (.other "exit status 2") rfl rfl⟩

/-- C9: RegisterCommand fails exactly when the name is empty or the handler
is nil; otherwise it stores the handler under the name normalized with the
"remex." namespace, overwriting any prior entry, so registering g1 then g2
under "upload" leaves exactly one entry for "remex.upload" and GetCommand
resolves it to g2. -/
theorem C9_register_command_contract :
    ∀ (reg : List (String × Handler)) (name : String) (f g1 g2 : Handler),
      (∃ err, RegisterCommand reg "" (some f) = .error err) ∧
      (∃ err, RegisterCommand reg name none = .error err) ∧
      (name ≠ "" →
        RegisterCommand reg name (some f) =
          .ok (insertAssoc reg (normalizeName name) f) ∧
        lookupAssoc (insertAssoc reg (normalizeName name) f)
          (normalizeName name) = some f) ∧
      (∀ r1 r2,
        RegisterCommand initialRegistry "upload" (some g1) = .ok r1 →
        RegisterCommand r1 "upload" (some g2) = .ok r2 →
        countKey r2 "remex.upload" = 1 ∧
        (GetCommand r2 "remex.upload").1 = some g2) := by
  intro reg name f g1 g2
  refine ⟨⟨.emptyName, rfl⟩, ?_, ?_, ?_⟩
  · by_cases h : name = ""
    · exact ⟨.emptyName, by simp [RegisterCommand, h]⟩
    · exact ⟨.nilHandler, by simp [RegisterCommand, h]⟩
  · intro hne
    exact ⟨by simp [RegisterCommand, hne],
           lookupAssoc_insertAssoc_self reg (normalizeName name) f⟩
  · intro r1 r2 e1 e2
    have h1 := Except.ok.inj e1
    subst h1
    have h2 := Except.ok.inj e2
    subst h2
    exact ⟨rfl, rfl⟩

/-- Witness for C9: the concrete two-registration scenario on the built-in
registry. -/
theorem C9_witness :
    RegisterCommand initialRegistry "upload" (some hUp1) = .ok regAfterFirst ∧
    RegisterCommand regAfterFirst "upload" (some hUp2) = .ok regAfterSecond ∧
    countKey regAfterSecond "remex.upload" = 1 ∧
    (GetCommand regAfterSecond "remex.upload").1 = some hUp2 := by
  have h := (C9_register_command_contract initialRegistry "upload" hUp1 hUp1
    hUp2).2.2.2 regAfterFirst regAfterSecond rfl rfl
  exact ⟨rfl, rfl, h.1, h.2⟩

end Remex
